import Mathlib

/-!
Shallow embedding of the vimango_mcp core (src/vimango_mcp/db.py and
src/vimango_mcp/server.py): SQLite tables are modelled as lists of rows in
rowid (storage) order, queries as list filters, the FTS index as an external
function from query strings to ranked lists of tids, and the write
transaction of the insert path as explicit pending/commit/rollback state.
-/

namespace Vimango

/-- A row of the task table of vimango.db. `tid` is the sync id (NULL until
the external sync assigns it), `note` is the body column (nullable). -/
structure Task where
  id : Nat
  tid : Option Int
  title : String
  note : Option String
  context_uuid : String
  folder_uuid : String
  star : Bool
  added : Nat
  modified : Nat
  deleted : Bool
  archived : Bool
deriving DecidableEq

/-- A row of the context or folder table of vimango.db. -/
structure CatRow where
  id : Nat
  tid : Option Int
  title : String
  uuid : String
  star : Bool
  deleted : Bool
deriving DecidableEq

/-- The main database: the task, context and folder tables, each as the list
of its rows in storage (rowid) order. -/
structure MainDb where
  tasks : List Task
  contexts : List CatRow
  folders : List CatRow
deriving DecidableEq

/-- db.py get_context_uuid_by_name: SELECT uuid FROM context WHERE title=?
AND deleted=0, fetchone. SQLite string equality under the default BINARY
collation is exact (case-sensitive); fetchone takes the first row in storage
order since the query has no ORDER BY. -/
def get_context_uuid_by_name (db : MainDb) (name : String) : Option String :=
  ((db.contexts.filter (fun c => c.title == name && !c.deleted)).head?).map (fun c => c.uuid)

/-- db.py get_folder_uuid_by_name: same query shape against the folder table. -/
def get_folder_uuid_by_name (db : MainDb) (name : String) : Option String :=
  ((db.folders.filter (fun c => c.title == name && !c.deleted)).head?).map (fun c => c.uuid)

/-- Update applied to one matched row by update_note_metadata: each supplied
field is overwritten and modified is always refreshed. -/
def applyUpdates (t : Task) (cu fu ti : Option String) (st : Option Bool) (now : Nat) : Task :=
  { t with
    context_uuid := cu.getD t.context_uuid
    folder_uuid := fu.getD t.folder_uuid
    title := ti.getD t.title
    star := st.getD t.star
    modified := now }

/-- db.py update_note_metadata: with no supplied field it returns False
without touching the database; otherwise it runs
UPDATE task SET ... , modified = now WHERE id = ? AND deleted = 0
and reports rowcount > 0. Note the WHERE clause filters only `deleted`,
not `archived`. -/
def update_note_metadata (db : MainDb) (note_id : Nat)
    (cu fu ti : Option String) (st : Option Bool) (now : Nat) : MainDb × Bool :=
  if cu.isNone && fu.isNone && ti.isNone && st.isNone then
    (db, false)
  else
    let hit := db.tasks.any (fun t => t.id == note_id && !t.deleted)
    ({ db with
        tasks := db.tasks.map (fun t =>
          if t.id == note_id && !t.deleted then applyUpdates t cu fu ti st now else t) },
      hit)

/-- LEFT JOIN of one task row against the context (or folder) table on
uuid: every matching row contributes its title; no match yields a single
NULL row. -/
def leftJoinTitles (rows : List CatRow) (uuid : String) : List (Option String) :=
  match rows.filter (fun c => c.uuid == uuid) with
  | [] => [none]
  | ms => ms.map (fun c => some c.title)

/-- One emitted row of find_notes: rank, id, tid, title, context_title,
folder_title. -/
structure SearchResult where
  rank : Nat
  id : Nat
  tid : Int
  title : String
  context_title : String
  folder_title : String
deriving DecidableEq

/-- Python enumerate(tids, start=1): pair each tid with its 1-based rank. -/
def rankFrom : Nat → List Int → List (Nat × Int)
  | _, [] => []
  | n, t :: ts => (n, t) :: rankFrom (n + 1) ts

/-- The rows one (rank, tid) pair of the matches CTE contributes to the
find_notes join: inner-join the visible task rows with that tid
(WHERE task.deleted = 0 AND task.archived = 0), LEFT JOIN context and
folder titles with COALESCE to the string none. -/
def ftsJoinOne (db : MainDb) (m : Nat × Int) : List SearchResult :=
  (db.tasks.filter (fun t => t.tid == some m.2 && !t.deleted && !t.archived)).flatMap (fun t =>
    (leftJoinTitles db.contexts t.context_uuid).flatMap (fun ct =>
      (leftJoinTitles db.folders t.folder_uuid).map (fun ft =>
        { rank := m.1, id := t.id, tid := m.2, title := t.title,
          context_title := ct.getD "none", folder_title := ft.getD "none" })))

/-- The re-join of find_notes over all ranked matches, in rank order
(ORDER BY matches.rank). -/
def ftsJoin (db : MainDb) (ranked : List (Nat × Int)) : List SearchResult :=
  ranked.flatMap (ftsJoinOne db)

/-- Failure taxonomy of find_notes: ValueError for a too-short query,
RuntimeError for a missing or failing FTS backend. -/
inductive FindError
  | invalidArgument
  | backendFailure
deriving DecidableEq

/-- Python str.strip(): drop leading and trailing whitespace. Modelled
directly on the character list of the string. -/
def pyStrip (s : String) : String :=
  ⟨((s.data.dropWhile Char.isWhitespace).reverse.dropWhile Char.isWhitespace).reverse⟩

/-- db.py find_notes normalizes a non-positive limit to the default 5. -/
def normLimit (limit : Int) : Nat :=
  (if limit ≤ 0 then (5 : Int) else limit).toNat

/-- db.py find_notes: trim the query and reject it below 3 characters;
normalize the limit; fail if the FTS connection is absent or the FTS query
errors; otherwise take the ranked tids from the index (SQL LIMIT), return []
when there are none, and otherwise emit the rank-preserving join. The FTS
index is an external collaborator, modelled as a function from the cleaned
query to a ranked tid list (or a backend error). -/
def find_notes (ftsConn : Option (String → Except String (List Int)))
    (db : MainDb) (query : String) (limit : Int) :
    Except FindError (List SearchResult) :=
  let cleaned := pyStrip query
  if cleaned.length < 3 then
    Except.error FindError.invalidArgument
  else
    match ftsConn with
    | none => Except.error FindError.backendFailure
    | some idx =>
      match idx cleaned with
      | Except.error _ => Except.error FindError.backendFailure
      | Except.ok allTids =>
        let tids := allTids.take (normLimit limit)
        if tids.isEmpty then Except.ok []
        else Except.ok (ftsJoin db (rankFrom 1 tids))

/-- The record returned by get_note_by_id / get_note_by_tid: the `note`
field is the body column with NULL coalesced to the empty string
(Python `note or` applied to the empty string). -/
structure NoteRecord where
  id : Nat
  tid : Option Int
  title : String
  note : String
  context_title : String
  folder_title : String
deriving DecidableEq

/-- The joined rows one task row produces in the get_note queries:
LEFT JOIN context and folder on uuid, COALESCE titles to the string none. -/
def noteJoinRows (db : MainDb) (t : Task) : List NoteRecord :=
  (leftJoinTitles db.contexts t.context_uuid).flatMap (fun ct =>
    (leftJoinTitles db.folders t.folder_uuid).map (fun ft =>
      { id := t.id, tid := t.tid, title := t.title, note := t.note.getD "",
        context_title := ct.getD "none", folder_title := ft.getD "none" }))

/-- db.py get_note_by_id: point lookup WHERE task.id = ? AND
task.deleted = 0 AND task.archived = 0, joined for display titles,
fetchone. -/
def get_note_by_id (db : MainDb) (note_id : Nat) : Option NoteRecord :=
  ((db.tasks.filter (fun t => t.id == note_id && !t.deleted && !t.archived)).flatMap
    (noteJoinRows db)).head?

/-- db.py get_note_by_tid: point lookup WHERE task.tid = ? AND
task.deleted = 0 AND task.archived = 0, joined for display titles,
fetchone. -/
def get_note_by_tid (db : MainDb) (tid : Int) : Option NoteRecord :=
  ((db.tasks.filter (fun t => t.tid == some tid && !t.deleted && !t.archived)).flatMap
    (noteJoinRows db)).head?

/-- The SQLite connection to vimango.db: committed state plus the pending
(staged, uncommitted) task inserts of an open write transaction and the
write lock. -/
structure Conn where
  db : MainDb
  pendingTasks : List Task
  writeLock : Bool
deriving DecidableEq

/-- Where an insert run can fail with sqlite3.DatabaseError: at the INSERT
statement or at COMMIT. -/
inductive FailPoint
  | atExecute
  | atCommit
deriving DecidableEq

/-- SQLite rowid assignment: one more than the largest task id present. -/
def nextTaskId (l : List Task) : Nat :=
  l.foldr (fun t m => max t.id m) 0 + 1

/-- Executing the INSERT statement: stages the row in the open write
transaction and takes the write lock, or raises. -/
def sqlExecInsert (c : Conn) (row : Task) (fail : Bool) : Except String Conn :=
  if fail then Except.error "database error"
  else Except.ok { c with pendingTasks := c.pendingTasks ++ [row], writeLock := true }

/-- COMMIT: publishes the staged rows and releases the write lock, or
raises. -/
def sqlCommit (c : Conn) (fail : Bool) : Except String Conn :=
  if fail then Except.error "database error"
  else Except.ok
    { db := { c.db with tasks := c.db.tasks ++ c.pendingTasks }
      pendingTasks := []
      writeLock := false }

/-- ROLLBACK: discards the staged rows and releases the write lock. -/
def sqlRollback (c : Conn) : Conn :=
  { c with pendingTasks := [], writeLock := false }

/-- The row db.py insert_note stages: tid left NULL for sync, deleted and
archived default false, added and modified set to the creation time. -/
def mkTaskRow (id : Nat) (title note cu fu : String) (star : Bool) (now : Nat) : Task :=
  { id := id, tid := none, title := title, note := some note,
    context_uuid := cu, folder_uuid := fu, star := star,
    added := now, modified := now, deleted := false, archived := false }

/-- db.py insert_note: INSERT then COMMIT inside a try block whose
DatabaseError handler rolls back before re-raising; returns lastrowid on
success. -/
def insert_note (c : Conn) (title note cu fu : String) (star : Bool) (now : Nat)
    (failPoint : Option FailPoint) : Conn × Except String Nat :=
  let newId := nextTaskId (c.db.tasks ++ c.pendingTasks)
  let row := mkTaskRow newId title note cu fu star now
  match sqlExecInsert c row (failPoint == some FailPoint.atExecute) with
  | Except.error e => (sqlRollback c, Except.error e)
  | Except.ok c1 =>
    match sqlCommit c1 (failPoint == some FailPoint.atCommit) with
    | Except.error e => (sqlRollback c1, Except.error e)
    | Except.ok c2 => (c2, Except.ok newId)

/-- Outcome of the create_note tool handler in server.py, one constructor
per return site. -/
inductive CreateOutcome
  | contextMissing (name : String)
  | folderMissing (name : String)
  | created (id : Nat) (title : String)
  | insertFailed (msg : String)
deriving DecidableEq

/-- server.py call_tool, create_note branch: resolve the context name, then
the folder name (each failure returns an error without touching the task
table), then insert. -/
def create_note_tool (c : Conn) (title note contextName folderName : String)
    (star : Bool) (now : Nat) (failPoint : Option FailPoint) : CreateOutcome × Conn :=
  match get_context_uuid_by_name c.db contextName with
  | none => (CreateOutcome.contextMissing contextName, c)
  | some cu =>
    match get_folder_uuid_by_name c.db folderName with
    | none => (CreateOutcome.folderMissing folderName, c)
    | some fu =>
      match insert_note c title note cu fu star now failPoint with
      | (c2, Except.ok id) => (CreateOutcome.created id title, c2)
      | (c2, Except.error e) => (CreateOutcome.insertFailed e, c2)

/-- Outcome of the update_note tool handler in server.py, one constructor
per return site. -/
inductive UpdateOutcome
  | noFieldsProvided
  | contextMissing (name : String)
  | folderMissing (name : String)
  | updatedTrue (note_id : Nat)
  | updatedFalse (note_id : Nat)
deriving DecidableEq

/-- server.py call_tool, update_note branch: reject a call with no update
field before consulting the database; resolve supplied context and folder
names; run update_note_metadata and report its boolean as distinct
updatedTrue / updatedFalse responses. -/
def update_note_tool (db : MainDb) (note_id : Nat)
    (contextName folderName titleArg : Option String) (star : Option Bool)
    (now : Nat) : UpdateOutcome × MainDb :=
  if contextName.isNone && folderName.isNone && titleArg.isNone && star.isNone then
    (UpdateOutcome.noFieldsProvided, db)
  else
    let cres : Except UpdateOutcome (Option String) :=
      match contextName with
      | none => Except.ok none
      | some cn =>
        match get_context_uuid_by_name db cn with
        | none => Except.error (UpdateOutcome.contextMissing cn)
        | some cu => Except.ok (some cu)
    match cres with
    | Except.error o => (o, db)
    | Except.ok cu =>
      let fres : Except UpdateOutcome (Option String) :=
        match folderName with
        | none => Except.ok none
        | some fn =>
          match get_folder_uuid_by_name db fn with
          | none => Except.error (UpdateOutcome.folderMissing fn)
          | some fu => Except.ok (some fu)
      match fres with
      | Except.error o => (o, db)
      | Except.ok fu =>
        let r := update_note_metadata db note_id cu fu titleArg star now
        (if r.2 then UpdateOutcome.updatedTrue note_id else UpdateOutcome.updatedFalse note_id,
          r.1)

/-! Helper lemmas about the list-backed table model. -/

/-- The head of a filtered list is a member of the list satisfying the
predicate. -/
theorem head?_filter_spec {α : Type} {l : List α} {p : α → Bool} {a : α}
    (h : (l.filter p).head? = some a) : a ∈ l ∧ p a = true := by
  have ha : a ∈ l.filter p := by
    cases hfp : l.filter p with
    | nil => rw [hfp] at h; cases h
    | cons x xs =>
      rw [hfp] at h
      simp only [List.head?_cons, Option.some.injEq] at h
      subst h
      exact List.mem_cons_self x xs
  exact List.mem_filter.mp ha

/-- If the images of a list under a partial projection are pairwise
distinct and the predicate forces a fixed image, at most one row passes
the filter. -/
theorem filter_length_le_one {α β : Type} {l : List α} {p : α → Bool}
    {f : α → Option β} {b : β}
    (hn : (l.filterMap f).Nodup) (himp : ∀ x, p x = true → f x = some b) :
    (l.filter p).length ≤ 1 := by
  induction l with
  | nil => simp
  | cons x tl ih =>
    rw [List.filterMap_cons] at hn
    by_cases hp : p x = true
    · have hfx : f x = some b := himp x hp
      rw [hfx] at hn
      have hb : b ∉ tl.filterMap f := (List.nodup_cons.mp hn).1
      have htl : tl.filter p = [] := by
        apply List.eq_nil_iff_forall_not_mem.mpr
        intro y hy
        have hy' := List.mem_filter.mp hy
        exact hb (List.mem_filterMap.mpr ⟨y, hy'.1, himp y hy'.2⟩)
      simp [List.filter_cons, hp, htl]
    · have hn' : (tl.filterMap f).Nodup := by
        cases hfx : f x with
        | none => rw [hfx] at hn; exact hn
        | some c => rw [hfx] at hn; exact (List.nodup_cons.mp hn).2
      simpa [List.filter_cons, hp] using ih hn'

/-- A list of length at most one containing a given element is the
singleton of that element. -/
theorem eq_singleton_of_length_le_one {α : Type} {l : List α} {a : α}
    (h1 : l.length ≤ 1) (h2 : a ∈ l) : l = [a] := by
  match l with
  | [] => cases h2
  | [x] => rw [List.mem_singleton.mp h2]
  | x :: y :: tl => simp at h1

/-- filterMap through a total `some` projection is a map. -/
theorem filterMap_some_eq_map {α β : Type} (g : α → β) (l : List α) :
    l.filterMap (fun x => some (g x)) = l.map g := by
  induction l with
  | nil => rfl
  | cons x tl ih => simp [List.filterMap_cons, ih]

/-- Mapping into `some` preserves duplicate-freedom through filterMap. -/
theorem nodup_filterMap_some {α β : Type} {l : List α} {g : α → β}
    (h : (l.map g).Nodup) : (l.filterMap (fun x => some (g x))).Nodup := by
  rw [filterMap_some_eq_map]
  exact h

/-- Every row id is below the next assigned rowid. -/
theorem id_lt_nextTaskId {l : List Task} {t : Task} (h : t ∈ l) :
    t.id < nextTaskId l := by
  have hle : t.id ≤ l.foldr (fun t m => max t.id m) 0 := by
    induction l with
    | nil => cases h
    | cons x tl ih =>
      rcases List.mem_cons.mp h with h' | h'
      · subst h'; exact le_max_left _ _
      · exact le_trans (ih h') (le_max_right _ _)
  exact Nat.lt_succ_of_le hle

/-- A map that fixes every member of a list is the identity on it. -/
theorem map_id_of_mem_fix {α : Type} {l : List α} {f : α → α}
    (h : ∀ x ∈ l, f x = x) : l.map f = l := by
  induction l with
  | nil => rfl
  | cons x tl ih =>
    simp only [List.map_cons, h x (List.mem_cons_self x tl),
      ih (fun y hy => h y (List.mem_cons_of_mem x hy))]

/-- A LEFT JOIN row list is never empty: an unmatched row yields NULL. -/
theorem leftJoinTitles_ne_nil (rows : List CatRow) (u : String) :
    leftJoinTitles rows u ≠ [] := by
  unfold leftJoinTitles
  cases hf : rows.filter (fun c => c.uuid == u) with
  | nil => simp
  | cons x xs => simp

/-- With duplicate-free uuids, a LEFT JOIN on uuid yields exactly one row. -/
theorem leftJoinTitles_length_one {rows : List CatRow} (u : String)
    (hn : (rows.map (fun c => c.uuid)).Nodup) :
    (leftJoinTitles rows u).length = 1 := by
  have hle : (rows.filter (fun c => c.uuid == u)).length ≤ 1 := by
    refine filter_length_le_one (f := fun c => some c.uuid) (b := u)
      (nodup_filterMap_some hn) ?_
    intro x hx
    simp only [Bool.and_eq_true, beq_iff_eq] at hx
    simp [hx]
  unfold leftJoinTitles
  cases hf : rows.filter (fun c => c.uuid == u) with
  | nil => rfl
  | cons c tl =>
    cases tl with
    | nil => rfl
    | cons d tl2 =>
      rw [hf] at hle
      simp at hle

/-- Splitting the find_notes join at the first ranked match. -/
theorem ftsJoin_cons (db : MainDb) (m : Nat × Int) (rest : List (Nat × Int)) :
    ftsJoin db (m :: rest) = ftsJoinOne db m ++ ftsJoin db rest := by
  simp [ftsJoin]

/-- Under duplicate-free task tids and context/folder uuids, one ranked
match contributes no row or exactly one row carrying its own rank. -/
theorem ftsJoinOne_cases (db : MainDb) (m : Nat × Int)
    (htid : (db.tasks.filterMap (fun t => t.tid)).Nodup)
    (hcu : (db.contexts.map (fun c => c.uuid)).Nodup)
    (hfu : (db.folders.map (fun c => c.uuid)).Nodup) :
    ftsJoinOne db m = [] ∨ ∃ x, ftsJoinOne db m = [x] ∧ x.rank = m.1 := by
  have hle : (db.tasks.filter
      (fun t => t.tid == some m.2 && !t.deleted && !t.archived)).length ≤ 1 := by
    refine filter_length_le_one (f := fun t => t.tid) (b := m.2) htid ?_
    intro x hx
    simp only [Bool.and_eq_true, beq_iff_eq] at hx
    exact hx.1.1
  unfold ftsJoinOne
  cases hf : db.tasks.filter (fun t => t.tid == some m.2 && !t.deleted && !t.archived) with
  | nil =>
    left
    rfl
  | cons tk tl =>
    cases tl with
    | nil =>
      right
      obtain ⟨ct, hct⟩ := List.length_eq_one.mp (leftJoinTitles_length_one tk.context_uuid hcu)
      obtain ⟨ft, hft⟩ := List.length_eq_one.mp (leftJoinTitles_length_one tk.folder_uuid hfu)
      refine ⟨{ rank := m.1, id := tk.id, tid := m.2, title := tk.title,
                context_title := ct.getD "none", folder_title := ft.getD "none" }, ?_, rfl⟩
      simp [List.flatMap_cons, List.flatMap_nil, hct, hft]
    | cons tk2 tl2 =>
      rw [hf] at hle
      simp at hle

/-- The ranks emitted by the find_notes join form a sublist of the input
ranks, in order, when tids and uuids are duplicate-free. -/
theorem ftsJoin_rank_sublist (db : MainDb)
    (htid : (db.tasks.filterMap (fun t => t.tid)).Nodup)
    (hcu : (db.contexts.map (fun c => c.uuid)).Nodup)
    (hfu : (db.folders.map (fun c => c.uuid)).Nodup)
    (ranked : List (Nat × Int)) :
    ((ftsJoin db ranked).map (fun r => r.rank)).Sublist (ranked.map (fun m => m.1)) := by
  induction ranked with
  | nil => simp [ftsJoin]
  | cons m rest ih =>
    rw [ftsJoin_cons, List.map_append, List.map_cons]
    rcases ftsJoinOne_cases db m htid hcu hfu with h0 | ⟨x, hx, hr⟩
    · rw [h0, List.map_nil, List.nil_append]
      exact ih.cons m.1
    · rw [hx]
      simp only [List.map_cons, List.map_nil, List.cons_append, List.nil_append]
      rw [hr]
      exact ih.cons₂ m.1

/-- The first components of enumerate(tids, start=n) are n, n+1, .... -/
theorem rankFrom_map_fst (n : Nat) (l : List Int) :
    (rankFrom n l).map (fun m => m.1) = List.range' n l.length := by
  induction l generalizing n with
  | nil => rfl
  | cons t ts ih => simp [rankFrom, List.range'_succ, ih]

/-- Every emitted search row comes from a live, visible task row with the
matching tid. -/
theorem mem_ftsJoin_tid {db : MainDb} {ranked : List (Nat × Int)} {r : SearchResult}
    (h : r ∈ ftsJoin db ranked) :
    ∃ t ∈ db.tasks, t.tid = some r.tid ∧ t.deleted = false ∧ t.archived = false := by
  simp only [ftsJoin, List.mem_flatMap] at h
  obtain ⟨m, hm, hr⟩ := h
  simp only [ftsJoinOne, List.mem_flatMap, List.mem_map, List.mem_filter] at hr
  obtain ⟨t, ⟨ht, hcond⟩, ct, hct, ft, hft, hrec⟩ := hr
  simp only [Bool.and_eq_true, beq_iff_eq, Bool.not_eq_true'] at hcond
  refine ⟨t, ht, ?_, hcond.1.2, hcond.2⟩
  rw [← hrec]
  exact hcond.1.1

/-- A successful find_notes run emits either the early empty list or the
rank-preserving join of some ranked match list. -/
theorem find_notes_ok_shape {ftsConn : Option (String → Except String (List Int))}
    {db : MainDb} {query : String} {limit : Int} {res : List SearchResult}
    (h : find_notes ftsConn db query limit = Except.ok res) :
    res = [] ∨ ∃ ranked, res = ftsJoin db ranked := by
  simp only [find_notes] at h
  split at h
  · exact Except.noConfusion h
  · split at h
    · exact Except.noConfusion h
    · split at h
      · exact Except.noConfusion h
      · split at h
        · left
          exact (Except.ok.inj h).symm
        · right
          exact ⟨_, (Except.ok.inj h).symm⟩

/-- Example store for the search claims: one visible task synced with tid
10, plus a deleted task synced with tid 5. -/
def searchDb : MainDb :=
  { tasks := [
      { id := 1, tid := some 10, title := "Buy milk", note := some "2 percent",
        context_uuid := "cu-1", folder_uuid := "fu-1", star := false,
        added := 3, modified := 3, deleted := false, archived := false },
      { id := 2, tid := some 5, title := "Old note", note := none,
        context_uuid := "cu-1", folder_uuid := "fu-1", star := false,
        added := 1, modified := 2, deleted := true, archived := false }],
    contexts := [],
    folders := [] }

/-- C4: for every relevance query accepted by find_notes, with
duplicate-free task tids and duplicate-free context/folder uuids, the
sequence of rank values in the emitted result list is a sublist — in
order, strictly increasing, gaps allowed — of the 1-based ranks 1..n
assigned to the n matches the index returned. -/
theorem c4_ranks_strict_subsequence
    (ftsIndex : String → List Int) (db : MainDb) (query : String) (limit : Int)
    (res : List SearchResult)
    (htid : (db.tasks.filterMap (fun t => t.tid)).Nodup)
    (hcu : (db.contexts.map (fun c => c.uuid)).Nodup)
    (hfu : (db.folders.map (fun c => c.uuid)).Nodup)
    (h : find_notes (some (fun q => Except.ok (ftsIndex q))) db query limit
      = Except.ok res) :
    (res.map (fun r => r.rank)).Sublist
      (List.range' 1 ((ftsIndex (pyStrip query)).take (normLimit limit)).length) := by
  simp only [find_notes] at h
  split at h
  · exact Except.noConfusion h
  · split at h
    · obtain rfl := (Except.ok.inj h).symm
      simp only [List.map_nil]
      exact List.nil_sublist _
    · obtain rfl := (Except.ok.inj h).symm
      rw [← rankFrom_map_fst 1]
      exact ftsJoin_rank_sublist db htid hcu hfu _

/-- Witness for C4: a concrete run where the first index match was dropped
by the join, so the emitted ranks are the gapped subsequence [2] of [1, 2]. -/
theorem c4_ranks_strict_subsequence_witness :
    (([{ rank := 2, id := 1, tid := 10, title := "Buy milk",
         context_title := "none", folder_title := "none" }] : List SearchResult).map
      (fun r => r.rank)).Sublist
      (List.range' 1 ((([7, 10] : List Int)).take (normLimit 5)).length) :=
  c4_ranks_strict_subsequence (fun _ => [7, 10]) searchDb "milk" 5 _
    (by decide) (by decide) (by decide) rfl

/-- C5: if every task row carrying a given tid is deleted or archived in
the store (or no row carries it), no result emitted by find_notes has that
tid, even though the index may still return it. -/
theorem c5_stale_matches_dropped
    (ftsConn : Option (String → Except String (List Int))) (db : MainDb)
    (query : String) (limit : Int) (res : List SearchResult) (tid : Int)
    (h : find_notes ftsConn db query limit = Except.ok res)
    (hstale : ∀ t ∈ db.tasks, t.tid = some tid → t.deleted = true ∨ t.archived = true) :
    ∀ r ∈ res, r.tid ≠ tid := by
  intro r hr
  rcases find_notes_ok_shape h with rfl | ⟨ranked, rfl⟩
  · cases hr
  · obtain ⟨t, ht, htid2, hd, ha⟩ := mem_ftsJoin_tid hr
    intro hrt
    rw [hrt] at htid2
    rcases hstale t ht htid2 with hc | hc
    · exact Bool.noConfusion (hd.symm.trans hc)
    · exact Bool.noConfusion (ha.symm.trans hc)

/-- Witness for C5: tid 5 is still in the index results but its only task
row is deleted, so the single emitted result is the visible tid 10 note. -/
theorem c5_stale_matches_dropped_witness :
    ({ rank := 2, id := 1, tid := 10, title := "Buy milk",
       context_title := "none", folder_title := "none" } : SearchResult).tid ≠ 5 :=
  c5_stale_matches_dropped (some (fun _ => Except.ok [5, 10])) searchDb "milk" 5
    [{ rank := 2, id := 1, tid := 10, title := "Buy milk",
       context_title := "none", folder_title := "none" }] 5 rfl (by decide)
    { rank := 2, id := 1, tid := 10, title := "Buy milk",
      context_title := "none", folder_title := "none" } (by decide)

/-- C6: a query whose trimmed length is below 3 characters is rejected by
find_notes as an invalid argument, for every FTS connection state and every
store — the index and the store are never consulted — and in particular
such a query never yields an empty success result. -/
theorem c6_short_query_rejected
    (ftsConn : Option (String → Except String (List Int))) (db : MainDb)
    (query : String) (limit : Int) (h : (pyStrip query).length < 3) :
    find_notes ftsConn db query limit = Except.error FindError.invalidArgument
    ∧ find_notes ftsConn db query limit ≠ Except.ok [] := by
  have he : find_notes ftsConn db query limit = Except.error FindError.invalidArgument := by
    simp only [find_notes]
    rw [if_pos h]
  refine ⟨he, ?_⟩
  rw [he]
  exact fun hc => Except.noConfusion hc

/-- Witness for C6 at the spec example, the two-character query. -/
theorem c6_short_query_rejected_witness :
    find_notes none searchDb "ab" 5 = Except.error FindError.invalidArgument
    ∧ find_notes none searchDb "ab" 5 ≠ Except.ok [] :=
  c6_short_query_rejected none searchDb "ab" 5 (by decide)

/-- Soundness of the name lookup query shape: a returned uuid belongs to a
non-deleted row whose title is byte-for-byte equal to the requested name. -/
theorem lookup_sound {rows : List CatRow} {name u : String}
    (h : ((rows.filter (fun c => c.title == name && !c.deleted)).head?).map
      (fun c => c.uuid) = some u) :
    ∃ c ∈ rows, c.deleted = false ∧ c.title = name ∧ c.uuid = u := by
  obtain ⟨r, hr, hru⟩ := Option.map_eq_some'.mp h
  obtain ⟨hmem, hpred⟩ := head?_filter_spec hr
  simp only [Bool.and_eq_true, beq_iff_eq, Bool.not_eq_true'] at hpred
  exact ⟨r, hmem, hpred.2, hpred.1, hru⟩

/-- Completeness of the name lookup query shape: a none result means no
non-deleted row has a byte-for-byte equal title. -/
theorem lookup_complete {rows : List CatRow} {name : String}
    (h : ((rows.filter (fun c => c.title == name && !c.deleted)).head?).map
      (fun c => c.uuid) = none) :
    ∀ c ∈ rows, c.deleted = false → c.title ≠ name := by
  intro c hc hdel hti
  have hnil : rows.filter (fun x => x.title == name && !x.deleted) = [] := by
    have := Option.map_eq_none'.mp h
    exact List.head?_eq_none_iff.mp this
  have : c ∈ rows.filter (fun x => x.title == name && !x.deleted) :=
    List.mem_filter.mpr ⟨hc, by simp [hti, hdel]⟩
  rw [hnil] at this
  cases this

/-- Example store for the name-resolution claims: a single visible context
named Work (stored with a capital W) and a single visible folder named
Projects. -/
def caseDb : MainDb :=
  { tasks := [],
    contexts := [
      { id := 1, tid := some 1, title := "Work", uuid := "u-work",
        star := false, deleted := false }],
    folders := [
      { id := 1, tid := some 2, title := "Projects", uuid := "u-proj",
        star := false, deleted := false }] }

/-- C1 counterexample: the claimed case-insensitive resolution fails on the
code — the lower-case spelling of a stored name does not resolve while the
stored spelling does, so two names differing only in letter case do not
resolve to the same identity. -/
theorem c1_counterexample :
    get_context_uuid_by_name caseDb "work" = none
    ∧ get_context_uuid_by_name caseDb "Work" = some "u-work" := by
  constructor
  · decide
  · decide

/-- C1 amended: name resolution is an exact, case-sensitive (SQLite BINARY)
match against display_name among non-deleted rows, the first matching row
in table storage order winning: a returned uuid belongs to a non-deleted
row with exactly the requested title, and a none result means no
non-deleted row carries exactly that title — for contexts and folders
alike. -/
theorem c1_amended_exact_match (db : MainDb) (name : String) :
    (∀ u, get_context_uuid_by_name db name = some u →
      ∃ c ∈ db.contexts, c.deleted = false ∧ c.title = name ∧ c.uuid = u)
    ∧ (get_context_uuid_by_name db name = none →
      ∀ c ∈ db.contexts, c.deleted = false → c.title ≠ name)
    ∧ (∀ u, get_folder_uuid_by_name db name = some u →
      ∃ f ∈ db.folders, f.deleted = false ∧ f.title = name ∧ f.uuid = u)
    ∧ (get_folder_uuid_by_name db name = none →
      ∀ f ∈ db.folders, f.deleted = false → f.title ≠ name) :=
  ⟨fun _ h => lookup_sound h, fun h => lookup_complete h,
   fun _ h => lookup_sound h, fun h => lookup_complete h⟩

/-- Witness for C1 amended at the example store. -/
theorem c1_amended_exact_match_witness :
    ∃ c ∈ caseDb.contexts, c.deleted = false ∧ c.title = "Work" ∧ c.uuid = "u-work" :=
  (c1_amended_exact_match caseDb "Work").1 "u-work" (by decide)

/-- Example store for the update claims: one archived but not deleted
note. -/
def archivedDb : MainDb :=
  { tasks := [
      { id := 1, tid := none, title := "Old title", note := some "body",
        context_uuid := "cu", folder_uuid := "fu", star := false,
        added := 1, modified := 1, deleted := false, archived := true }],
    contexts := [],
    folders := [] }

/-- C2 counterexample: the UPDATE filters only deleted = 0, so an
archived-but-not-deleted note is updated and the call reports true — the
claimed false-and-unchanged outcome fails. -/
theorem c2_counterexample :
    (update_note_metadata archivedDb 1 none none (some "New title") none 9).2 = true
    ∧ (update_note_metadata archivedDb 1 none none (some "New title") none 9).1 ≠ archivedDb := by
  constructor
  · decide
  · decide

/-- C2 amended: update_note_metadata returns false and leaves the store
unchanged exactly when no non-deleted row carries the given local_id (the
row is deleted or absent); the archived flag does not protect a row from
being updated. -/
theorem c2_amended_deleted_rows_untouched (db : MainDb) (note_id : Nat)
    (cu fu ti : Option String) (st : Option Bool) (now : Nat)
    (h : ∀ t ∈ db.tasks, t.id = note_id → t.deleted = true) :
    update_note_metadata db note_id cu fu ti st now = (db, false) := by
  have hcond : ∀ t ∈ db.tasks, (t.id == note_id && !t.deleted) = false := by
    intro t ht
    by_cases hid : t.id = note_id
    · simp [hid, h t ht hid]
    · simp [hid]
  unfold update_note_metadata
  by_cases hz : (cu.isNone && fu.isNone && ti.isNone && st.isNone) = true
  · rw [if_pos hz]
  · rw [if_neg hz]
    have hmap : db.tasks.map (fun t =>
        if t.id == note_id && !t.deleted then applyUpdates t cu fu ti st now else t)
        = db.tasks :=
      map_id_of_mem_fix (fun t ht => by simp [hcond t ht])
    have hany : db.tasks.any (fun t => t.id == note_id && !t.deleted) = false := by
      rw [List.any_eq_false]
      intro t ht
      simp [hcond t ht]
    rw [hmap, hany]

/-- Witness for C2 amended: updating a deleted note returns false and
changes nothing. -/
theorem c2_amended_deleted_rows_untouched_witness :
    update_note_metadata searchDb 2 none none (some "X") none 9 = (searchDb, false) :=
  c2_amended_deleted_rows_untouched searchDb 2 none none (some "X") none 9 (by decide)

/-- C3: at the tool boundary, an update_note call with zero update fields
is rejected with the no-fields invalid-argument outcome before the store is
consulted, while a call naming a local_id that matches no row yields the
updated-false outcome, and the two outcomes are distinct values for every
note_id. -/
theorem c3_zero_fields_distinct_outcome (db : MainDb) (note_id : Nat)
    (ti : String) (now : Nat)
    (h : ∀ t ∈ db.tasks, t.id ≠ note_id) :
    (update_note_tool db note_id none none none none now).1
      = UpdateOutcome.noFieldsProvided
    ∧ (update_note_tool db note_id none none (some ti) none now).1
      = UpdateOutcome.updatedFalse note_id
    ∧ UpdateOutcome.noFieldsProvided ≠ UpdateOutcome.updatedFalse note_id := by
  refine ⟨rfl, ?_, fun hc => UpdateOutcome.noConfusion hc⟩
  have hany : db.tasks.any (fun t => t.id == note_id && !t.deleted) = false := by
    rw [List.any_eq_false]
    intro t ht
    simp [h t ht]
  simp [update_note_tool, update_note_metadata, hany]

/-- Witness for C3 at a local_id no row carries. -/
theorem c3_zero_fields_distinct_outcome_witness :
    (update_note_tool searchDb 42 none none none none 0).1
      = UpdateOutcome.noFieldsProvided
    ∧ (update_note_tool searchDb 42 none none (some "T") none 0).1
      = UpdateOutcome.updatedFalse 42
    ∧ UpdateOutcome.noFieldsProvided ≠ UpdateOutcome.updatedFalse 42 :=
  c3_zero_fields_distinct_outcome searchDb 42 "T" 0 (by decide)

/-- A failure-free insert run on a clean connection commits exactly the new
row and returns the fresh rowid. -/
theorem insert_note_success (c : Conn) (title note cu fu : String) (star : Bool)
    (now : Nat) (hclean : c.pendingTasks = []) :
    insert_note c title note cu fu star now none =
      ({ db := { c.db with tasks := c.db.tasks
            ++ [mkTaskRow (nextTaskId c.db.tasks) title note cu fu star now] }
         pendingTasks := []
         writeLock := false },
       Except.ok (nextTaskId c.db.tasks)) := by
  simp [insert_note, sqlExecInsert, sqlCommit, hclean]

/-- C7: insert_note is atomic — on every run, whether the INSERT or the
COMMIT fails or nothing fails, the connection ends with no staged rows and
the write lock released, and the committed store either gains exactly the
full new row (success, returning its id) or is unchanged (failure). -/
theorem c7_insert_atomic (c : Conn) (title note cu fu : String) (star : Bool)
    (now : Nat) (failPoint : Option FailPoint) (hclean : c.pendingTasks = []) :
    ((insert_note c title note cu fu star now failPoint).1.pendingTasks = []
      ∧ (insert_note c title note cu fu star now failPoint).1.writeLock = false)
    ∧ (∀ id, (insert_note c title note cu fu star now failPoint).2 = Except.ok id →
        (insert_note c title note cu fu star now failPoint).1.db
          = { c.db with tasks := c.db.tasks
              ++ [mkTaskRow (nextTaskId c.db.tasks) title note cu fu star now] }
        ∧ id = nextTaskId c.db.tasks)
    ∧ (∀ e, (insert_note c title note cu fu star now failPoint).2 = Except.error e →
        (insert_note c title note cu fu star now failPoint).1.db = c.db) := by
  rcases failPoint with _ | fp
  · rw [insert_note_success c title note cu fu star now hclean]
    refine ⟨⟨rfl, rfl⟩, ?_, ?_⟩
    · intro id hid
      exact ⟨rfl, (Except.ok.inj hid).symm⟩
    · intro e he
      exact Except.noConfusion he
  · cases fp
    · refine ⟨⟨rfl, rfl⟩, ?_, ?_⟩
      · intro id hid
        exact Except.noConfusion hid
      · intro e _
        rfl
    · refine ⟨⟨rfl, rfl⟩, ?_, ?_⟩
      · intro id hid
        exact Except.noConfusion hid
      · intro e _
        rfl

/-- A fresh connection on a given committed store: no staged rows, lock
free. -/
def connOf (db : MainDb) : Conn :=
  { db := db, pendingTasks := [], writeLock := false }

/-- Witness for C7: a run that fails at COMMIT leaves the committed store
unchanged. -/
theorem c7_insert_atomic_witness :
    (insert_note (connOf searchDb) "T" "B" "cu" "fu" false 9
      (some FailPoint.atCommit)).1.db = searchDb :=
  (c7_insert_atomic (connOf searchDb) "T" "B" "cu" "fu" false 9
    (some FailPoint.atCommit) rfl).2.2 "database error" rfl

/-- If a name lookup returned a uuid and uuids are duplicate-free, the LEFT
JOIN on that uuid recovers exactly the looked-up display name. -/
theorem leftJoinTitles_of_lookup {rows : List CatRow} {name u : String}
    (h : ((rows.filter (fun c => c.title == name && !c.deleted)).head?).map
      (fun c => c.uuid) = some u)
    (hn : (rows.map (fun c => c.uuid)).Nodup) :
    leftJoinTitles rows u = [some name] := by
  obtain ⟨r, hr, hru⟩ := Option.map_eq_some'.mp h
  obtain ⟨hmem, hpred⟩ := head?_filter_spec hr
  simp only [Bool.and_eq_true, beq_iff_eq, Bool.not_eq_true'] at hpred
  have hfil : rows.filter (fun c => c.uuid == u) = [r] := by
    apply eq_singleton_of_length_le_one
    · refine filter_length_le_one (f := fun c => some c.uuid) (b := u)
        (nodup_filterMap_some hn) ?_
      intro x hx
      simp only [beq_iff_eq] at hx
      simp [hx]
    · exact List.mem_filter.mpr ⟨hmem, by simp [hru]⟩
  unfold leftJoinTitles
  rw [hfil]
  simp [hpred.1]

/-- C8: creating a note through a successful insert and immediately reading
it back by the returned local id yields a visible record carrying the same
title and body, and — when the context and folder uuids came from name
resolution and uuids are duplicate-free — the same context and folder
names. -/
theorem c8_create_then_get_roundtrip (c : Conn) (title body cname fname : String)
    (star : Bool) (now : Nat) (cu fu : String)
    (hclean : c.pendingTasks = [])
    (hcu : get_context_uuid_by_name c.db cname = some cu)
    (hfu : get_folder_uuid_by_name c.db fname = some fu)
    (hcn : (c.db.contexts.map (fun x => x.uuid)).Nodup)
    (hfn : (c.db.folders.map (fun x => x.uuid)).Nodup) :
    (insert_note c title body cu fu star now none).2
      = Except.ok (nextTaskId c.db.tasks)
    ∧ get_note_by_id (insert_note c title body cu fu star now none).1.db
        (nextTaskId c.db.tasks)
      = some { id := nextTaskId c.db.tasks, tid := none, title := title,
               note := body, context_title := cname, folder_title := fname } := by
  rw [insert_note_success c title body cu fu star now hclean]
  refine ⟨rfl, ?_⟩
  set newId := nextTaskId c.db.tasks with hnew
  set row := mkTaskRow newId title body cu fu star now with hrow
  have hfil : (c.db.tasks ++ [row]).filter
      (fun t => t.id == newId && !t.deleted && !t.archived) = [row] := by
    rw [List.filter_append]
    have h1 : c.db.tasks.filter (fun t => t.id == newId && !t.deleted && !t.archived) = [] := by
      apply List.eq_nil_iff_forall_not_mem.mpr
      intro t ht
      obtain ⟨htm, htp⟩ := List.mem_filter.mp ht
      simp only [Bool.and_eq_true, beq_iff_eq] at htp
      exact absurd htp.1.1 (Nat.ne_of_lt (id_lt_nextTaskId htm))
    have h2 : List.filter (fun t => t.id == newId && !t.deleted && !t.archived) [row] = [row] := by
      simp [hrow, mkTaskRow]
    rw [h1, h2, List.nil_append]
  show ((((c.db.tasks ++ [row])).filter
      (fun t => t.id == newId && !t.deleted && !t.archived)).flatMap
      (noteJoinRows { c.db with tasks := c.db.tasks ++ [row] })).head? = _
  rw [hfil]
  have hct : leftJoinTitles c.db.contexts cu = [some cname] :=
    leftJoinTitles_of_lookup hcu hcn
  have hft : leftJoinTitles c.db.folders fu = [some fname] :=
    leftJoinTitles_of_lookup hfu hfn
  simp [noteJoinRows, hrow, mkTaskRow, hct, hft]

/-- Example store for the create/read round trip: visible context and
folder rows named none, as vimango reserves. -/
def roundDb : MainDb :=
  { tasks := [],
    contexts := [
      { id := 1, tid := some 1, title := "none", uuid := "cu-none",
        star := false, deleted := false }],
    folders := [
      { id := 1, tid := some 1, title := "none", uuid := "fu-none",
        star := false, deleted := false }] }

/-- Witness for C8 at the spec example note. -/
theorem c8_create_then_get_roundtrip_witness :
    (insert_note (connOf roundDb) "Buy milk" "2 percent" "cu-none" "fu-none"
      false 4 none).2 = Except.ok 1
    ∧ get_note_by_id (insert_note (connOf roundDb) "Buy milk" "2 percent"
        "cu-none" "fu-none" false 4 none).1.db 1
      = some { id := 1, tid := none, title := "Buy milk", note := "2 percent",
               context_title := "none", folder_title := "none" } :=
  c8_create_then_get_roundtrip (connOf roundDb) "Buy milk" "2 percent"
    "none" "none" false 4 "cu-none" "fu-none" rfl (by decide) (by decide)
    (by decide) (by decide)

/-- C9: a create_note call whose context or folder name does not resolve to
a visible row returns the corresponding not-found outcome and leaves the
whole connection state — committed store included — unchanged: the insert
is never attempted. -/
theorem c9_unresolvable_name_no_mutation (c : Conn)
    (title note contextName folderName : String) (star : Bool) (now : Nat)
    (failPoint : Option FailPoint)
    (h : get_context_uuid_by_name c.db contextName = none
      ∨ get_folder_uuid_by_name c.db folderName = none) :
    ((create_note_tool c title note contextName folderName star now failPoint).1
        = CreateOutcome.contextMissing contextName
      ∨ (create_note_tool c title note contextName folderName star now failPoint).1
        = CreateOutcome.folderMissing folderName)
    ∧ (create_note_tool c title note contextName folderName star now failPoint).2 = c := by
  unfold create_note_tool
  rcases h with hc | hf
  · rw [hc]
    exact ⟨Or.inl rfl, rfl⟩
  · cases hcu : get_context_uuid_by_name c.db contextName with
    | none => exact ⟨Or.inl rfl, rfl⟩
    | some cu =>
      rw [hf]
      exact ⟨Or.inr rfl, rfl⟩

/-- Witness for C9: an unknown context name leaves the store untouched. -/
theorem c9_unresolvable_name_no_mutation_witness :
    ((create_note_tool (connOf roundDb) "T" "B" "Nope" "none" false 0 none).1
        = CreateOutcome.contextMissing "Nope"
      ∨ (create_note_tool (connOf roundDb) "T" "B" "Nope" "none" false 0 none).1
        = CreateOutcome.folderMissing "none")
    ∧ (create_note_tool (connOf roundDb) "T" "B" "Nope" "none" false 0 none).2
      = connOf roundDb :=
  c9_unresolvable_name_no_mutation (connOf roundDb) "T" "B" "Nope" "none"
    false 0 none (Or.inl (by decide))

/-- The get_note join rows of one task are non-empty and their head carries
the body column coalesced to the empty string. -/
theorem noteJoinRows_head_note (db : MainDb) (t : Task) :
    ∃ r, (noteJoinRows db t).head? = some r ∧ r.note = t.note.getD "" := by
  cases h1 : leftJoinTitles db.contexts t.context_uuid with
  | nil => exact absurd h1 (leftJoinTitles_ne_nil _ _)
  | cons ct cts =>
    cases h2 : leftJoinTitles db.folders t.folder_uuid with
    | nil => exact absurd h2 (leftJoinTitles_ne_nil _ _)
    | cons ft fts =>
      refine ⟨{ id := t.id, tid := t.tid, title := t.title, note := t.note.getD "",
                context_title := ct.getD "none", folder_title := ft.getD "none" }, ?_, rfl⟩
      simp [noteJoinRows, h1, h2]

/-- C10: a visible note whose stored body column is NULL is returned by
get_note_by_id, and by get_note_by_tid when synced, with body equal to the
empty string — the note field of a returned record is always a string. -/
theorem c10_null_body_empty_string (db : MainDb) (t : Task)
    (hmem : t ∈ db.tasks) (hd : t.deleted = false) (ha : t.archived = false)
    (hnote : t.note = none) :
    ((db.tasks.map (fun x => x.id)).Nodup →
      ∃ r, get_note_by_id db t.id = some r ∧ r.note = "")
    ∧ (∀ tidv : Int, t.tid = some tidv →
      (db.tasks.filterMap (fun x => x.tid)).Nodup →
      ∃ r, get_note_by_tid db tidv = some r ∧ r.note = "") := by
  constructor
  · intro hids
    have hfil : db.tasks.filter (fun x => x.id == t.id && !x.deleted && !x.archived) = [t] := by
      apply eq_singleton_of_length_le_one
      · refine filter_length_le_one (f := fun x => some x.id) (b := t.id)
          (nodup_filterMap_some hids) ?_
        intro x hx
        simp only [Bool.and_eq_true, beq_iff_eq] at hx
        simp [hx.1.1]
      · exact List.mem_filter.mpr ⟨hmem, by simp [hd, ha]⟩
    obtain ⟨r, hr, hrn⟩ := noteJoinRows_head_note db t
    refine ⟨r, ?_, by rw [hrn, hnote]; rfl⟩
    unfold get_note_by_id
    rw [hfil]
    simpa using hr
  · intro tidv htid htids
    have hfil : db.tasks.filter (fun x => x.tid == some tidv && !x.deleted && !x.archived) = [t] := by
      apply eq_singleton_of_length_le_one
      · refine filter_length_le_one (f := fun x => x.tid) (b := tidv) htids ?_
        intro x hx
        simp only [Bool.and_eq_true, beq_iff_eq] at hx
        exact hx.1.1
      · exact List.mem_filter.mpr ⟨hmem, by simp [htid, hd, ha]⟩
    obtain ⟨r, hr, hrn⟩ := noteJoinRows_head_note db t
    refine ⟨r, ?_, by rw [hrn, hnote]; rfl⟩
    unfold get_note_by_tid
    rw [hfil]
    simpa using hr

/-- Example store for the NULL-body claim: one visible task with a NULL
note column. -/
def nullBodyDb : MainDb :=
  { tasks := [
      { id := 3, tid := some 30, title := "Empty body", note := none,
        context_uuid := "cu", folder_uuid := "fu", star := false,
        added := 0, modified := 0, deleted := false, archived := false }],
    contexts := [],
    folders := [] }

/-- Witness for C10 at the example store. -/
theorem c10_null_body_empty_string_witness :
    (∃ r, get_note_by_id nullBodyDb 3 = some r ∧ r.note = "")
    ∧ (∃ r, get_note_by_tid nullBodyDb 30 = some r ∧ r.note = "") :=
  ⟨(c10_null_body_empty_string nullBodyDb
      { id := 3, tid := some 30, title := "Empty body", note := none,
        context_uuid := "cu", folder_uuid := "fu", star := false,
        added := 0, modified := 0, deleted := false, archived := false }
      (by decide) rfl rfl rfl).1 (by decide),
   (c10_null_body_empty_string nullBodyDb
      { id := 3, tid := some 30, title := "Empty body", note := none,
        context_uuid := "cu", folder_uuid := "fu", star := false,
        added := 0, modified := 0, deleted := false, archived := false }
      (by decide) rfl rfl rfl).2 30 rfl (by decide)⟩

end Vimango
